import Mathlib

/-!
Verification of the CyberX discovery-and-classification system.

Part 1 embeds the frontend helper code (`frontend/static/js/api.js`,
`frontend/static/js/main.js`) shallowly in Lean: JS numbers appearing in risk
scores are modelled as rationals, JS strings as `List Char` where character
counts matter, and the nullable `direction` argument as `Option String`.

Part 2 models the discovery-and-classification core (Frontier, Risk Ensemble,
release/backoff state machine).  That core is described by the specification
but its implementation is not part of the visible repository sources, so every
definition in Part 2 is modelled from the specification text.
-/

namespace CyberX

namespace Frontend

/-- Embeds `apiHelpers.getRiskLevel` from `frontend/static/js/api.js`:
`if (score >= 0.8) return 'HIGH'; if (score >= 0.6) return 'MEDIUM'; return 'LOW';`. -/
def getRiskLevel (score : ℚ) : String :=
  if score ≥ 8/10 then "HIGH"
  else if score ≥ 6/10 then "MEDIUM"
  else "LOW"

/-- Embeds `apiHelpers.getRiskClass` from `frontend/static/js/api.js`:
`if (score >= 0.8) return 'risk-high'; if (score >= 0.6) return 'risk-medium'; return 'risk-low';`. -/
def getRiskClass (score : ℚ) : String :=
  if score ≥ 8/10 then "risk-high"
  else if score ≥ 6/10 then "risk-medium"
  else "risk-low"

/-- Embeds `apiHelpers.truncateText` from `frontend/static/js/api.js`.
A JS string is a list of characters; an absent (`null`/`undefined`) argument is
`none`.  `if (!text) return ''` is the empty/absent test, `text.length <=
maxLength` returns the text unchanged, otherwise
`text.substring(0, maxLength) + '...'`. -/
def truncateText (text : Option (List Char)) (maxLength : Nat) : List Char :=
  match text with
  | none => []
  | some t =>
    if t = [] then []
    else if t.length ≤ maxLength then t
    else t.take maxLength ++ ['.', '.', '.']

/-- Embeds the pagination-update logic of `loadTelegramData` in
`frontend/static/js/main.js` (lines 92-98): `direction === 'next'` increments
the page, `direction === 'prev'` sets it to `Math.max(0, page - 1)`,
`direction !== 'refresh'` resets it to 0, and otherwise (`'refresh'`) the page
is left unchanged.  The JS default argument `direction = null` is `none`. -/
def telegramUpdatePage (page : Int) (direction : Option String) : Int :=
  if direction = some "next" then page + 1
  else if direction = some "prev" then max 0 (page - 1)
  else if direction ≠ some "refresh" then 0
  else page

/-- Embeds the pagination-update logic of `loadWebpageData` in
`frontend/static/js/main.js` (lines 226-232), which is textually identical to
the telegram one but acts on `this.pagination.webpage.page`. -/
def webpageUpdatePage (page : Int) (direction : Option String) : Int :=
  if direction = some "next" then page + 1
  else if direction = some "prev" then max 0 (page - 1)
  else if direction ≠ some "refresh" then 0
  else page

end Frontend

end CyberX

namespace CyberX

/-- C8: `getRiskLevel` returns "HIGH" iff `score ≥ 0.8`, "MEDIUM" iff
`0.6 ≤ score < 0.8`, "LOW" otherwise, and `getRiskClass` agrees with it,
returning "risk-high"/"risk-medium"/"risk-low" exactly when `getRiskLevel`
returns "HIGH"/"MEDIUM"/"LOW" respectively. -/
theorem C8_risk_level_thresholds (score : ℚ) :
    (Frontend.getRiskLevel score = "HIGH" ↔ 8/10 ≤ score) ∧
    (Frontend.getRiskLevel score = "MEDIUM" ↔ 6/10 ≤ score ∧ score < 8/10) ∧
    (Frontend.getRiskLevel score = "LOW" ↔ score < 6/10) ∧
    (Frontend.getRiskClass score = "risk-high" ↔ Frontend.getRiskLevel score = "HIGH") ∧
    (Frontend.getRiskClass score = "risk-medium" ↔ Frontend.getRiskLevel score = "MEDIUM") ∧
    (Frontend.getRiskClass score = "risk-low" ↔ Frontend.getRiskLevel score = "LOW") := by
  unfold Frontend.getRiskLevel Frontend.getRiskClass
  split_ifs with h1 h2 <;>
    refine ⟨?_, ?_, ?_, ?_, ?_, ?_⟩ <;> simp_all <;> first
      | linarith
      | (intro h; linarith)

/-- C9: `truncateText` returns the empty string on empty/absent input, the
text unchanged when `text.length ≤ maxLength`, and otherwise the first
`maxLength` characters followed by `"..."`, of length `maxLength + 3`. -/
theorem C9_truncateText_spec (t : List Char) (maxLength : Nat)
    (hpos : 0 < maxLength) :
    Frontend.truncateText none maxLength = [] ∧
    Frontend.truncateText (some []) maxLength = [] ∧
    (t.length ≤ maxLength → Frontend.truncateText (some t) maxLength = t) ∧
    (maxLength < t.length →
      Frontend.truncateText (some t) maxLength = t.take maxLength ++ ['.', '.', '.'] ∧
      (Frontend.truncateText (some t) maxLength).length = maxLength + 3) := by
  refine ⟨rfl, rfl, ?_, ?_⟩
  · intro hle
    simp only [Frontend.truncateText]
    split
    · rename_i h
      rw [h]
    · first
        | rfl
        | rw [if_pos hle]
  · intro hlt
    have hne : t ≠ [] := by
      intro h
      rw [h] at hlt
      simp at hlt
    constructor
    · simp only [Frontend.truncateText]
      rw [if_neg hne, if_neg (by omega)]
    · simp only [Frontend.truncateText]
      rw [if_neg hne, if_neg (by omega)]
      simp
      omega

/-- Witness for C9 at `t = ['a','b','c','d']`, `maxLength = 2`. -/
theorem C9_truncateText_spec_witness :
    Frontend.truncateText (some ['a', 'b', 'c', 'd']) 2 = ['a', 'b', '.', '.', '.'] ∧
    (Frontend.truncateText (some ['a', 'b', 'c', 'd']) 2).length = 5 := by
  have h := C9_truncateText_spec ['a', 'b', 'c', 'd'] 2 (by decide)
  have h4 := h.2.2.2 (by decide)
  exact ⟨by rw [h4.1]; decide, by rw [h4.2]⟩

/-- C10: the page index stays a non-negative integer under every direction:
`'next'` increments, `'prev'` decrements clamped at 0, `'refresh'` leaves it
unchanged, anything else resets to 0; the same holds for both the telegram and
the webpage view. -/
theorem C10_pagination_invariant (page : Int) (direction : Option String)
    (h : 0 ≤ page) :
    0 ≤ Frontend.telegramUpdatePage page direction ∧
    0 ≤ Frontend.webpageUpdatePage page direction ∧
    Frontend.telegramUpdatePage page (some "next") = page + 1 ∧
    Frontend.telegramUpdatePage page (some "prev") = max 0 (page - 1) ∧
    Frontend.telegramUpdatePage page (some "refresh") = page ∧
    (direction ≠ some "next" → direction ≠ some "prev" → direction ≠ some "refresh" →
      Frontend.telegramUpdatePage page direction = 0) ∧
    Frontend.webpageUpdatePage page direction = Frontend.telegramUpdatePage page direction := by
  unfold Frontend.telegramUpdatePage Frontend.webpageUpdatePage
  refine ⟨?_, ?_, by simp, by simp, by simp, ?_, rfl⟩
  · split_ifs <;> omega
  · split_ifs <;> omega
  · intro h1 h2 h3
    rw [if_neg h1, if_neg h2, if_pos h3]

/-- Witness for C10 at `page = 3`, `direction = some "prev"`. -/
theorem C10_pagination_invariant_witness :
    0 ≤ Frontend.telegramUpdatePage 3 (some "prev") ∧
    Frontend.telegramUpdatePage 3 (some "prev") = max 0 (3 - 1) := by
  have h := C10_pagination_invariant 3 (some "prev") (by decide)
  exact ⟨h.1, h.2.2.2.1⟩

namespace Core

/-- Modelled from the spec: the fixed, closed label set of a Verdict (§3):
benign, fraud, phishing, gambling, malware, suspicious.  The implementation of
the classification core is not among the visible repository sources. -/
inductive Label where
  | benign
  | fraud
  | phishing
  | gambling
  | malware
  | suspicious
deriving DecidableEq, Repr

/-- The label enumeration in a fixed order, `benign` first. -/
def allLabels : List Label :=
  [.benign, .fraud, .phishing, .gambling, .malware, .suspicious]

/-- Modelled from the spec: a Rule Engine rule (§4.3) — a deterministic,
side-effect-free predicate on the text, contributing a fixed weight and a
label hint when it triggers. -/
structure Rule where
  name : String
  trigger : String → Bool
  weight : ℚ
  hint : Label

/-- Modelled from the spec: the ensemble configuration — the rule/model blend
weight is a configuration parameter, not hard-coded (§4.3). -/
structure EnsembleConfig where
  blendWeight : ℚ

/-- Modelled from the spec: a Verdict record (§3) with the fields the claims
are about.  `sourceHash` is a content fingerprint of the classified text and
`producedAt` a timestamp supplied by the caller. -/
structure Verdict where
  label : Label
  probability : ℚ
  ruleSignals : List (String × ℚ)
  modelScore : Option ℚ
  producedAt : Nat
  sourceHash : UInt64
deriving DecidableEq, Repr

/-- The rules of the engine that trigger on the given text, in rule order
(§4.3: evaluation order affects only the order the evidence is reported in). -/
def triggered (rules : List Rule) (text : String) : List Rule :=
  rules.filter (fun r => r.trigger text)

/-- Cumulative rule weight per label: the sum of the weights of the triggered
rules hinting at that label (§4.3). -/
def cumWeight (rules : List Rule) (text : String) (l : Label) : ℚ :=
  (((triggered rules text).filter (fun r => r.hint = l)).map Rule.weight).sum

/-- The label maximising a score function, `benign` by default; earlier labels
in `allLabels` win ties. -/
def bestLabel (f : Label → ℚ) : Label :=
  allLabels.foldl (fun acc l => if f acc < f l then l else acc) .benign

/-- Total weight of all triggered rules, used to normalize the rule-only
probability (§4.3). -/
def totalWeight (rules : List Rule) (text : String) : ℚ :=
  ((triggered rules text).map Rule.weight).sum

/-- The per-label rule-side score entering the blend: cumulative rule weight,
clamped to 1 so it is a probability. -/
def ruleScore (rules : List Rule) (text : String) (l : Label) : ℚ :=
  min 1 (cumWeight rules text l)

/-- The blended per-label probability when the Model Scorer is available
(§4.3): `blendWeight * ruleScore + (1 - blendWeight) * modelDistribution`. -/
def combinedScore (cfg : EnsembleConfig) (rules : List Rule) (dist : Label → ℚ)
    (text : String) (l : Label) : ℚ :=
  cfg.blendWeight * ruleScore rules text l + (1 - cfg.blendWeight) * dist l

/-- Modelled from the spec: `classify(text, target) -> Verdict` (§4.3).  The
Model Scorer is a pluggable function returning a probability distribution over
labels or `none` when unavailable.  If unavailable, the verdict is rule-only:
label is the rule hint with highest cumulative weight (`benign` if no rule
triggers), probability is the normalized rule weight, `modelScore` absent.  If
available, the per-label combined probability is the configured blend
`combinedScore`. -/
def classify (cfg : EnsembleConfig) (rules : List Rule)
    (scorer : String → Option (Label → ℚ)) (text : String) (now : Nat) :
    Verdict :=
  let sigs := (triggered rules text).map (fun r => (r.name, r.weight))
  match scorer text with
  | none =>
    let lbl := bestLabel (cumWeight rules text)
    { label := lbl
      probability :=
        if totalWeight rules text = 0 then 0
        else cumWeight rules text lbl / totalWeight rules text
      ruleSignals := sigs
      modelScore := none
      producedAt := now
      sourceHash := text.hash }
  | some dist =>
    let lbl := bestLabel (combinedScore cfg rules dist text)
    { label := lbl
      probability := combinedScore cfg rules dist text lbl
      ruleSignals := sigs
      modelScore := some (dist lbl)
      producedAt := now
      sourceHash := text.hash }

/-- Modelled from the spec: the kind of a Target (§3): page or channel. -/
inductive Kind where
  | page
  | channel
deriving DecidableEq, Repr

/-- Modelled from the spec: the scheduling status of a FrontierEntry — pending
or in-progress after being handed to a worker (§4.1). -/
inductive EntryStatus where
  | pending
  | inProgress
deriving DecidableEq, Repr

/-- Modelled from the spec: a FrontierEntry (§3) — identifier back-reference,
priority, `notBefore` eligibility time, discovery time, plus the in-progress
mark of §4.1 and the per-entry transient-failure count of the capped-retry
state machine (§4.1, §9). -/
structure FrontierEntry where
  identifier : String
  kind : Kind
  priority : Nat
  notBefore : Nat
  discoveredAt : Nat
  failureCount : Nat
  status : EntryStatus
deriving DecidableEq, Repr

/-- The dequeue order of §4.1: descending priority, ties broken by oldest
`discoveredAt`. -/
def entryLE (a b : FrontierEntry) : Prop :=
  b.priority < a.priority ∨ (a.priority = b.priority ∧ a.discoveredAt ≤ b.discoveredAt)

instance : DecidableRel entryLE := fun a b => by
  rw [entryLE]
  infer_instance

instance : IsTotal FrontierEntry entryLE where
  total a b := by
    rw [entryLE, entryLE]
    omega

instance : IsTrans FrontierEntry entryLE where
  trans a b c hab hbc := by
    rw [entryLE] at hab hbc ⊢
    omega

/-- An entry is eligible for dequeue when it is pending and `notBefore ≤ now`
(§4.1). -/
def eligible (now : Nat) (e : FrontierEntry) : Bool :=
  decide (e.status = .pending ∧ e.notBefore ≤ now)

/-- Modelled from the spec: `dequeueBatch(n)` (§4.1) — returns up to `n`
eligible entries, ordered by descending priority then oldest `discoveredAt`,
and returns the frontier with each returned entry marked in-progress so that
it is excluded from further dequeues until released. -/
def dequeueBatch (n : Nat) (now : Nat) (frontier : List FrontierEntry) :
    List FrontierEntry × List FrontierEntry :=
  let batch := ((frontier.filter (eligible now)).insertionSort entryLE).take n
  let ids := batch.map FrontierEntry.identifier
  (batch,
   frontier.map (fun e =>
     if e.identifier ∈ ids then { e with status := .inProgress } else e))

/-- Modelled from the spec: the Target status machine of §3. -/
inductive TargetStatus where
  | pending
  | inProgress
  | done
  | permanentlyFailed
deriving DecidableEq, Repr

/-- Modelled from the spec: a Target record of the State Store (§3). -/
structure Target where
  identifier : String
  kind : Kind
  discoveredAt : Nat
  lastVisitedAt : Option Nat
  visitCount : Nat
  status : TargetStatus
deriving DecidableEq, Repr

/-- A target is recorded as permanently failed in the store: `enqueue` never
creates Frontier entries for such a target (§4.1: permanent failure removes
the entry from future scheduling). -/
def targetFailed (store : List Target) (id : String) : Bool :=
  store.any (fun t => decide (t.identifier = id ∧ t.status = .permanentlyFailed))

/-- Modelled from the spec: `enqueue(identifier, kind, priority)` (§4.1) —
idempotent; a no-op when the target is recorded permanently failed; when the
identifier already has an entry, only that entry's priority may be raised
(never lowered); otherwise a fresh pending entry is appended. -/
def enqueue (store : List Target) (frontier : List FrontierEntry)
    (id : String) (k : Kind) (p : Nat) (now : Nat) : List FrontierEntry :=
  if targetFailed store id then frontier
  else if frontier.any (fun e => decide (e.identifier = id)) then
    frontier.map (fun e =>
      if e.identifier = id then { e with priority := max e.priority p } else e)
  else frontier ++ [⟨id, k, p, now, now, 0, .pending⟩]

/-- Modelled from the spec: the outcome a worker reports to `release` (§4.1):
success, transient failure, or permanent failure. -/
inductive Outcome where
  | success
  | transientFailure
  | permanentFailure
deriving DecidableEq, Repr

/-- Modelled from the spec: the scheduling configuration — the retry cap, the
backoff base and the revisit-interval function are configuration parameters
(§4.1, §9 open question). -/
structure SchedConfig where
  retryCap : Nat
  backoffBase : Nat
  revisitInterval : Label → Nat

/-- Modelled from the spec: the pipeline state the Frontier transitions act
on — the State Store's Target records, the Frontier entries, and the current
Verdict label per target identifier (§3 ownership). -/
structure SysState where
  store : List Target
  frontier : List FrontierEntry
  verdictLabels : List (String × Label)

/-- The label of a target's current Verdict, `benign` when it has none. -/
def currentLabel (st : SysState) (id : String) : Label :=
  (st.verdictLabels.lookup id).getD .benign

/-- Modelled from the spec: `release` with success outcome (§4.1) — resets
backoff and sets `notBefore = now + revisitInterval(verdict)`; the Target is
marked done and its visit bookkeeping updated. -/
def releaseSuccess (cfg : SchedConfig) (st : SysState) (id : String) (now : Nat) :
    SysState :=
  { st with
    frontier := st.frontier.map (fun e =>
      if e.identifier = id then
        { e with status := .pending, failureCount := 0,
                 notBefore := now + cfg.revisitInterval (currentLabel st id) }
      else e),
    store := st.store.map (fun t =>
      if t.identifier = id then
        { t with status := .done, lastVisitedAt := some now,
                 visitCount := t.visitCount + 1 }
      else t) }

/-- Modelled from the spec: `release` with transient-failure outcome (§4.1) —
applies exponential backoff (`notBefore = now + backoffBase * 2 ^
failureCount`) up to the capped retry count; once the cap is reached the
Target is marked permanently-failed and its entry removed from scheduling,
while the Target record stays in the store for audit. -/
def releaseTransient (cfg : SchedConfig) (st : SysState) (id : String) (now : Nat) :
    SysState :=
  if st.frontier.any (fun e =>
      decide (e.identifier = id ∧ cfg.retryCap ≤ e.failureCount + 1)) then
    { st with
      frontier := st.frontier.filter (fun e => decide (e.identifier ≠ id)),
      store := st.store.map (fun t =>
        if t.identifier = id then { t with status := .permanentlyFailed } else t) }
  else
    { st with
      frontier := st.frontier.map (fun e =>
        if e.identifier = id then
          { e with status := .pending, failureCount := e.failureCount + 1,
                   notBefore := now + cfg.backoffBase * 2 ^ e.failureCount }
        else e) }

/-- Modelled from the spec: `release` with permanent-failure outcome (§4.1) —
removes the entry from future scheduling and records the terminal status, but
leaves the Target record intact. -/
def releasePermanent (st : SysState) (id : String) : SysState :=
  { st with
    frontier := st.frontier.filter (fun e => decide (e.identifier ≠ id)),
    store := st.store.map (fun t =>
      if t.identifier = id then { t with status := .permanentlyFailed } else t) }

/-- Modelled from the spec: `release(identifier, outcome)` (§4.1). -/
def release (cfg : SchedConfig) (st : SysState) (id : String) (outcome : Outcome)
    (now : Nat) : SysState :=
  match outcome with
  | .success => releaseSuccess cfg st id now
  | .transientFailure => releaseTransient cfg st id now
  | .permanentFailure => releasePermanent st id

/-- The rule of the C1 scenario: weight 0.9, label hint fraud. -/
def scenarioRule (name : String) (trig : String → Bool) : Rule :=
  ⟨name, trig, 9/10, .fraud⟩

/-- The scorer distribution of the C1 scenario: fraud 0.4, benign 0.6. -/
def scenarioDist : Label → ℚ
  | .fraud => 4/10
  | .benign => 6/10
  | _ => 0

end Core

/-- C1: with a single firing rule of weight 0.9 hinting fraud, a scorer
distribution `{fraud: 0.4, benign: 0.6}` and blend weight 0.7 for rules, the
verdict's combined fraud probability is exactly 0.75 and its label is fraud. -/
theorem C1_blend_scenario (name text : String) (trig : String → Bool) (now : Nat)
    (hfires : trig text = true) :
    (Core.classify ⟨7/10⟩ [Core.scenarioRule name trig]
        (fun _ => some Core.scenarioDist) text now).probability = 3/4 ∧
    (Core.classify ⟨7/10⟩ [Core.scenarioRule name trig]
        (fun _ => some Core.scenarioDist) text now).label = .fraud := by
  have htrig :
      Core.triggered [Core.scenarioRule name trig] text = [Core.scenarioRule name trig] := by
    simp [Core.triggered, List.filter, Core.scenarioRule, hfires]
  have hfr :
      Core.combinedScore ⟨7/10⟩ [Core.scenarioRule name trig] Core.scenarioDist text .fraud
        = 3/4 := by
    rw [Core.combinedScore, Core.ruleScore, Core.cumWeight, htrig]
    simp [Core.scenarioRule, Core.scenarioDist]
    norm_num [min_def]
  have hbe :
      Core.combinedScore ⟨7/10⟩ [Core.scenarioRule name trig] Core.scenarioDist text .benign
        = 9/50 := by
    rw [Core.combinedScore, Core.ruleScore, Core.cumWeight, htrig]
    simp [Core.scenarioRule, Core.scenarioDist]
    norm_num [min_def]
  have hph :
      Core.combinedScore ⟨7/10⟩ [Core.scenarioRule name trig] Core.scenarioDist text .phishing
        = 0 := by
    rw [Core.combinedScore, Core.ruleScore, Core.cumWeight, htrig]
    simp [Core.scenarioRule, Core.scenarioDist]
  have hga :
      Core.combinedScore ⟨7/10⟩ [Core.scenarioRule name trig] Core.scenarioDist text .gambling
        = 0 := by
    rw [Core.combinedScore, Core.ruleScore, Core.cumWeight, htrig]
    simp [Core.scenarioRule, Core.scenarioDist]
  have hma :
      Core.combinedScore ⟨7/10⟩ [Core.scenarioRule name trig] Core.scenarioDist text .malware
        = 0 := by
    rw [Core.combinedScore, Core.ruleScore, Core.cumWeight, htrig]
    simp [Core.scenarioRule, Core.scenarioDist]
  have hsu :
      Core.combinedScore ⟨7/10⟩ [Core.scenarioRule name trig] Core.scenarioDist text
        .suspicious = 0 := by
    rw [Core.combinedScore, Core.ruleScore, Core.cumWeight, htrig]
    simp [Core.scenarioRule, Core.scenarioDist]
  have hbest :
      Core.bestLabel
          (Core.combinedScore ⟨7/10⟩ [Core.scenarioRule name trig] Core.scenarioDist text)
        = .fraud := by
    rw [Core.bestLabel, Core.allLabels]
    simp only [List.foldl]
    norm_num [hbe, hfr, hph, hga, hma, hsu]
  constructor
  · simp only [Core.classify, hbest]
    exact hfr
  · simp only [Core.classify, hbest]

/-- Witness for C1: a rule named "send bank details" whose trigger always
fires. -/
theorem C1_blend_scenario_witness :
    (fun _ => true) "send bank details to claim your prize" = true ∧
    (Core.classify ⟨7/10⟩ [Core.scenarioRule "send bank details" (fun _ => true)]
        (fun _ => some Core.scenarioDist)
        "send bank details to claim your prize" 0).probability = 3/4 :=
  ⟨rfl,
    (C1_blend_scenario "send bank details" "send bank details to claim your prize"
      (fun _ => true) 0 rfl).1⟩

/-- Every entry of a dequeued batch comes from the frontier, is pending, and
is past its `notBefore` time. -/
theorem mem_dequeueBatch_fst {n now : Nat} {frontier : List Core.FrontierEntry}
    {e : Core.FrontierEntry} (h : e ∈ (Core.dequeueBatch n now frontier).1) :
    e ∈ frontier ∧ e.status = .pending ∧ e.notBefore ≤ now := by
  rw [Core.dequeueBatch] at h
  simp only at h
  have h1 : e ∈ (frontier.filter (Core.eligible now)).insertionSort Core.entryLE :=
    List.take_subset n _ h
  rw [List.mem_insertionSort] at h1
  rw [List.mem_filter] at h1
  have h2 := h1.2
  rw [Core.eligible, decide_eq_true_eq] at h2
  exact ⟨h1.1, h2.1, h2.2⟩

/-- Every entry of the post-dequeue frontier whose identifier is in the batch
is marked in-progress. -/
theorem mem_dequeueBatch_snd {n now : Nat} {frontier : List Core.FrontierEntry}
    {e : Core.FrontierEntry} (h : e ∈ (Core.dequeueBatch n now frontier).2)
    (hid : e.identifier ∈ (Core.dequeueBatch n now frontier).1.map
      Core.FrontierEntry.identifier) :
    e.status = .inProgress := by
  rw [Core.dequeueBatch] at h hid
  simp only at h hid
  rw [List.mem_map] at h
  obtain ⟨a, _, ha⟩ := h
  by_cases hmem :
      a.identifier ∈ (((frontier.filter (Core.eligible now)).insertionSort
        Core.entryLE).take n).map Core.FrontierEntry.identifier
  · rw [if_pos hmem] at ha
    rw [← ha]
  · rw [if_neg hmem] at ha
    rw [← ha] at hid
    exact absurd hid hmem

/-- C2: `dequeueBatch n` returns at most `n` entries, each pending with
`notBefore ≤ now`, ordered by descending priority with ties broken by oldest
`discoveredAt`; every returned entry is marked in-progress in the resulting
frontier, and a subsequent `dequeueBatch` on that frontier returns none of
them (no double dispatch before `release`). -/
theorem C2_dequeueBatch_contract (n now : Nat) (frontier : List Core.FrontierEntry) :
    (Core.dequeueBatch n now frontier).1.length ≤ n ∧
    (∀ e ∈ (Core.dequeueBatch n now frontier).1,
      e.notBefore ≤ now ∧ e.status = .pending) ∧
    List.Sorted Core.entryLE (Core.dequeueBatch n now frontier).1 ∧
    (∀ e ∈ (Core.dequeueBatch n now frontier).2,
      e.identifier ∈ (Core.dequeueBatch n now frontier).1.map
        Core.FrontierEntry.identifier →
      e.status = .inProgress) ∧
    (∀ m now2 e2,
      e2 ∈ (Core.dequeueBatch m now2 (Core.dequeueBatch n now frontier).2).1 →
      e2.identifier ∉ (Core.dequeueBatch n now frontier).1.map
        Core.FrontierEntry.identifier) := by
  refine ⟨?_, ?_, ?_, ?_, ?_⟩
  · rw [Core.dequeueBatch]
    exact List.length_take_le n _
  · intro e he
    exact ⟨(mem_dequeueBatch_fst he).2.2, (mem_dequeueBatch_fst he).2.1⟩
  · rw [Core.dequeueBatch]
    exact (List.sorted_insertionSort Core.entryLE _).sublist (List.take_sublist n _)
  · intro e he hid
    exact mem_dequeueBatch_snd he hid
  · intro m now2 e2 he2 hid
    have hpend := (mem_dequeueBatch_fst he2).2.1
    have hmem := (mem_dequeueBatch_fst he2).1
    have := mem_dequeueBatch_snd hmem hid
    rw [hpend] at this
    exact Core.EntryStatus.noConfusion this

/-- C3: enqueueing the same identifier twice before it is dequeued leaves
exactly one Frontier entry for it, whose priority is the maximum of the two
requested priorities — so the second call never lowers and may raise the
priority. -/
theorem C3_enqueue_idempotent (store : List Core.Target)
    (frontier : List Core.FrontierEntry) (id : String) (k1 k2 : Core.Kind)
    (p1 p2 t1 t2 : Nat)
    (hno : ∀ e ∈ frontier, e.identifier ≠ id)
    (hok : Core.targetFailed store id = false) :
    ((Core.enqueue store (Core.enqueue store frontier id k1 p1 t1) id k2 p2 t2).filter
        (fun e => decide (e.identifier = id))).length = 1 ∧
    (∀ e ∈ Core.enqueue store (Core.enqueue store frontier id k1 p1 t1) id k2 p2 t2,
      e.identifier = id → e.priority = max p1 p2 ∧ p1 ≤ e.priority) := by
  have hany1 : frontier.any (fun e => decide (e.identifier = id)) = false := by
    rw [Bool.eq_false_iff]
    intro hc
    rw [List.any_eq_true] at hc
    obtain ⟨e, he, hdec⟩ := hc
    exact hno e he (of_decide_eq_true hdec)
  have hfr1 : Core.enqueue store frontier id k1 p1 t1 =
      frontier ++ [⟨id, k1, p1, t1, t1, 0, .pending⟩] := by
    rw [Core.enqueue, if_neg (by rw [hok]; exact Bool.false_ne_true), hany1]
    simp
  have hany2 : (frontier ++ [(⟨id, k1, p1, t1, t1, 0, .pending⟩ : Core.FrontierEntry)]).any
      (fun e => decide (e.identifier = id)) = true := by
    rw [List.any_eq_true]
    exact ⟨⟨id, k1, p1, t1, t1, 0, .pending⟩, by simp, by simp⟩
  have hfr2 : Core.enqueue store (Core.enqueue store frontier id k1 p1 t1) id k2 p2 t2 =
      frontier ++ [⟨id, k1, max p1 p2, t1, t1, 0, .pending⟩] := by
    rw [hfr1, Core.enqueue, if_neg (by rw [hok]; exact Bool.false_ne_true), hany2]
    simp only [List.map_append]
    have hmap : frontier.map (fun e =>
        if e.identifier = id then { e with priority := max e.priority p2 } else e) =
          frontier := by
      rw [List.map_congr_left (fun e he => if_neg (hno e he))]
      exact List.map_id' frontier
    rw [hmap]
    simp
  rw [hfr2]
  constructor
  · rw [List.filter_append]
    have hnil : frontier.filter (fun e => decide (e.identifier = id)) = [] := by
      rw [List.filter_eq_nil_iff]
      intro e he
      simp only [decide_eq_true_eq]
      exact hno e he
    rw [hnil]
    simp
  · intro e he hid
    rw [List.mem_append] at he
    rcases he with he | he
    · exact absurd hid (hno e he)
    · rw [List.mem_singleton] at he
      rw [he]
      exact ⟨rfl, le_max_left p1 p2⟩

/-- Witness for C3, the spec scenario: enqueue `http://example.com/a` twice
with priorities 1 and 5 into an empty frontier leaves one entry with
priority 5. -/
theorem C3_enqueue_idempotent_witness :
    ((Core.enqueue [] (Core.enqueue [] [] "http://example.com/a" .page 1 0)
        "http://example.com/a" .channel 5 3).filter
      (fun e => decide (e.identifier = "http://example.com/a"))).length = 1 ∧
    (∀ e ∈ Core.enqueue [] (Core.enqueue [] [] "http://example.com/a" .page 1 0)
        "http://example.com/a" .channel 5 3,
      e.identifier = "http://example.com/a" → e.priority = max 1 5 ∧ 1 ≤ e.priority) :=
  C3_enqueue_idempotent [] [] "http://example.com/a" .page .channel 1 5 0 3
    (by intro e he; exact absurd he (List.not_mem_nil e)) rfl

/-- C4: classification is idempotent on identical text — two `classify` calls
at different times agree on every Verdict field except `producedAt`. -/
theorem C4_classify_idempotent (cfg : Core.EnsembleConfig) (rules : List Core.Rule)
    (scorer : String → Option (Core.Label → ℚ)) (text : String) (t1 t2 : Nat) :
    (Core.classify cfg rules scorer text t1).label =
      (Core.classify cfg rules scorer text t2).label ∧
    (Core.classify cfg rules scorer text t1).probability =
      (Core.classify cfg rules scorer text t2).probability ∧
    (Core.classify cfg rules scorer text t1).ruleSignals =
      (Core.classify cfg rules scorer text t2).ruleSignals ∧
    (Core.classify cfg rules scorer text t1).modelScore =
      (Core.classify cfg rules scorer text t2).modelScore ∧
    (Core.classify cfg rules scorer text t1).sourceHash =
      (Core.classify cfg rules scorer text t2).sourceHash := by
  rw [Core.classify, Core.classify]
  cases scorer text <;> simp

/-- C5: with the Model Scorer unavailable the verdict is rule-only — its label
is the rule hint with highest cumulative weight (`benign` when no rule
triggers), its probability is the normalized rule weight, `modelScore` is
absent, and two runs whose scorers are both unavailable on the text produce
identical verdicts regardless of any other scorer behavior. -/
theorem C5_degraded_mode (cfg : Core.EnsembleConfig) (rules : List Core.Rule)
    (scorer1 scorer2 : String → Option (Core.Label → ℚ)) (text : String) (now : Nat)
    (h1 : scorer1 text = none) (h2 : scorer2 text = none) :
    Core.classify cfg rules scorer1 text now =
      Core.classify cfg rules scorer2 text now ∧
    (Core.classify cfg rules scorer1 text now).modelScore = none ∧
    (Core.classify cfg rules scorer1 text now).label =
      Core.bestLabel (Core.cumWeight rules text) ∧
    (Core.classify cfg rules scorer1 text now).probability =
      (if Core.totalWeight rules text = 0 then 0
       else Core.cumWeight rules text (Core.bestLabel (Core.cumWeight rules text)) /
          Core.totalWeight rules text) ∧
    (Core.triggered rules text = [] →
      (Core.classify cfg rules scorer1 text now).label = .benign) := by
  rw [Core.classify, Core.classify, h1, h2]
  refine ⟨rfl, rfl, rfl, rfl, ?_⟩
  intro hnone
  have hcum : ∀ l, Core.cumWeight rules text l = 0 := by
    intro l
    rw [Core.cumWeight, hnone]
    simp
  simp only
  rw [Core.bestLabel, Core.allLabels]
  simp [hcum]

/-- Witness for C5: no rules, a scorer that is unavailable on every text. -/
theorem C5_degraded_mode_witness :
    Core.classify ⟨7/10⟩ [] (fun _ => none) "t" 0 =
      Core.classify ⟨7/10⟩ [] (fun _ => some (fun _ => 1)) "t" 0 ∨
    ((Core.classify ⟨7/10⟩ [] (fun _ => none) "t" 0).modelScore = none ∧
      (Core.classify ⟨7/10⟩ [] (fun _ => none) "t" 0).label = .benign) :=
  Or.inr
    ⟨(C5_degraded_mode ⟨7/10⟩ [] (fun _ => none) (fun _ => none) "t" 0 rfl rfl).2.1,
     (C5_degraded_mode ⟨7/10⟩ [] (fun _ => none) (fun _ => none) "t" 0 rfl rfl).2.2.2.2 rfl⟩

/-- C6: with retry cap 3, three consecutive transient-failure releases of a
fresh entry apply exponential backoff on the first two failures
(`notBefore = now + backoffBase * 2 ^ failures`), then mark the Target
permanently-failed with its record still in the State Store, remove its
Frontier entry, and `enqueue` never creates an entry for it again. -/
theorem C6_capped_retry (cfg : Core.SchedConfig) (hcap : cfg.retryCap = 3)
    (id : String) (k : Core.Kind) (p nb da : Nat) (tgt : Core.Target)
    (ht : tgt.identifier = id) (vs : List (String × Core.Label)) (t1 t2 t3 : Nat) :
    (Core.release cfg ⟨[tgt], [⟨id, k, p, nb, da, 0, .pending⟩], vs⟩ id
        .transientFailure t1).frontier =
      [⟨id, k, p, t1 + cfg.backoffBase * 2 ^ 0, da, 1, .pending⟩] ∧
    (Core.release cfg (Core.release cfg ⟨[tgt], [⟨id, k, p, nb, da, 0, .pending⟩], vs⟩
        id .transientFailure t1) id .transientFailure t2).frontier =
      [⟨id, k, p, t2 + cfg.backoffBase * 2 ^ 1, da, 2, .pending⟩] ∧
    (Core.release cfg (Core.release cfg (Core.release cfg
        ⟨[tgt], [⟨id, k, p, nb, da, 0, .pending⟩], vs⟩ id .transientFailure t1)
        id .transientFailure t2) id .transientFailure t3).frontier = [] ∧
    (Core.release cfg (Core.release cfg (Core.release cfg
        ⟨[tgt], [⟨id, k, p, nb, da, 0, .pending⟩], vs⟩ id .transientFailure t1)
        id .transientFailure t2) id .transientFailure t3).store =
      [{ tgt with status := .permanentlyFailed }] ∧
    (∀ k2 p2 t,
      Core.enqueue
        (Core.release cfg (Core.release cfg (Core.release cfg
          ⟨[tgt], [⟨id, k, p, nb, da, 0, .pending⟩], vs⟩ id .transientFailure t1)
          id .transientFailure t2) id .transientFailure t3).store
        (Core.release cfg (Core.release cfg (Core.release cfg
          ⟨[tgt], [⟨id, k, p, nb, da, 0, .pending⟩], vs⟩ id .transientFailure t1)
          id .transientFailure t2) id .transientFailure t3).frontier
        id k2 p2 t = []) := by
  have h1 : Core.release cfg ⟨[tgt], [⟨id, k, p, nb, da, 0, .pending⟩], vs⟩ id
      .transientFailure t1 =
      ⟨[tgt], [⟨id, k, p, t1 + cfg.backoffBase * 2 ^ 0, da, 1, .pending⟩], vs⟩ := by
    rw [Core.release, Core.releaseTransient, hcap]
    norm_num
  have h2 : Core.release cfg
      (⟨[tgt], [⟨id, k, p, t1 + cfg.backoffBase * 2 ^ 0, da, 1, .pending⟩], vs⟩ :
        Core.SysState) id .transientFailure t2 =
      ⟨[tgt], [⟨id, k, p, t2 + cfg.backoffBase * 2 ^ 1, da, 2, .pending⟩], vs⟩ := by
    rw [Core.release, Core.releaseTransient, hcap]
    norm_num
  have h3 : Core.release cfg
      (⟨[tgt], [⟨id, k, p, t2 + cfg.backoffBase * 2 ^ 1, da, 2, .pending⟩], vs⟩ :
        Core.SysState) id .transientFailure t3 =
      ⟨[{ tgt with status := .permanentlyFailed }], [], vs⟩ := by
    rw [Core.release, Core.releaseTransient, hcap]
    norm_num [ht]
  rw [h1, h2, h3]
  refine ⟨rfl, rfl, rfl, rfl, ?_⟩
  intro k2 p2 t
  rw [Core.enqueue]
  have hfail : Core.targetFailed [{ tgt with status := .permanentlyFailed }] id = true := by
    rw [Core.targetFailed, List.any_eq_true]
    exact ⟨{ tgt with status := .permanentlyFailed }, by simp, by simp [ht]⟩
  rw [hfail]
  simp

/-- Witness for C6 at a concrete configuration and target. -/
theorem C6_capped_retry_witness :
    (Core.release ⟨3, 5, fun _ => 7⟩ (Core.release ⟨3, 5, fun _ => 7⟩
        (Core.release ⟨3, 5, fun _ => 7⟩
          ⟨[⟨"u", .page, 0, none, 0, .pending⟩], [⟨"u", .page, 1, 0, 0, 0, .pending⟩], []⟩
          "u" .transientFailure 10) "u" .transientFailure 20)
        "u" .transientFailure 30).store =
      [⟨"u", .page, 0, none, 0, .permanentlyFailed⟩] ∧
    (Core.release ⟨3, 5, fun _ => 7⟩ (Core.release ⟨3, 5, fun _ => 7⟩
        (Core.release ⟨3, 5, fun _ => 7⟩
          ⟨[⟨"u", .page, 0, none, 0, .pending⟩], [⟨"u", .page, 1, 0, 0, 0, .pending⟩], []⟩
          "u" .transientFailure 10) "u" .transientFailure 20)
        "u" .transientFailure 30).frontier = [] := by
  have h := C6_capped_retry ⟨3, 5, fun _ => 7⟩ rfl "u" .page 1 0 0
    ⟨"u", .page, 0, none, 0, .pending⟩ rfl [] 10 20 30
  exact ⟨h.2.2.2.1, h.2.2.1⟩

/-- C7: after a successful visit and release, the next `notBefore` assigned to
a target whose current verdict's risk level has a strictly shorter configured
revisit interval than benign is strictly less than the `notBefore` assigned to
an otherwise-identical target with a benign current verdict. -/
theorem C7_revisit_monotone (cfg : Core.SchedConfig) (lH : Core.Label)
    (hH : cfg.revisitInterval lH < cfg.revisitInterval .benign)
    (store : List Core.Target) (id : String) (k : Core.Kind)
    (p nb da fc : Nat) (s : Core.EntryStatus) (now : Nat) :
    (Core.release cfg ⟨store, [⟨id, k, p, nb, da, fc, s⟩], [(id, lH)]⟩ id
        .success now).frontier.map Core.FrontierEntry.notBefore =
      [now + cfg.revisitInterval lH] ∧
    (Core.release cfg ⟨store, [⟨id, k, p, nb, da, fc, s⟩], [(id, .benign)]⟩ id
        .success now).frontier.map Core.FrontierEntry.notBefore =
      [now + cfg.revisitInterval .benign] ∧
    now + cfg.revisitInterval lH < now + cfg.revisitInterval .benign := by
  refine ⟨?_, ?_, by omega⟩
  · rw [Core.release, Core.releaseSuccess]
    simp [Core.currentLabel, List.lookup]
  · rw [Core.release, Core.releaseSuccess]
    simp [Core.currentLabel, List.lookup]

/-- Witness for C7: a high-risk (fraud) target is rescheduled strictly sooner
than an otherwise-identical benign one under a configuration giving fraud a
10-tick and benign a 100-tick revisit interval. -/
theorem C7_revisit_monotone_witness :
    (Core.release ⟨3, 5, fun l => if l = .benign then 100 else 10⟩
        ⟨[], [⟨"u", .page, 1, 0, 0, 0, .inProgress⟩], [("u", .fraud)]⟩ "u"
        .success 50).frontier.map Core.FrontierEntry.notBefore = [50 + 10] ∧
    (Core.release ⟨3, 5, fun l => if l = .benign then 100 else 10⟩
        ⟨[], [⟨"u", .page, 1, 0, 0, 0, .inProgress⟩], [("u", .benign)]⟩ "u"
        .success 50).frontier.map Core.FrontierEntry.notBefore = [50 + 100] := by
  have h := C7_revisit_monotone ⟨3, 5, fun l => if l = .benign then 100 else 10⟩
    .fraud (by decide) [] "u" .page 1 0 0 0 .inProgress 50
  exact ⟨h.1, h.2.1⟩

end CyberX
